import Mathlib

/-!
Verification of the shinpuru ColorListener (internal/listeners, file given as
src/unnamed/part_000): a shallow embedding of the message handler pipeline
(scan for color hex tokens, decode, upload a transient emoji, attach it as a
reaction, record a correlation-cache entry) and of the reaction handler (reply
with a color breakdown on the first human reaction, single consumption).

External platform calls (image rendering, emoji upload, reaction add, embed
send) are fallible operations whose outcomes are supplied by an `Env`
parameter; every call that the Go code performs is recorded as an `Effect` so
that theorems can speak about which calls happen.  The mutable shared state is
the correlation cache (`emojiCahce` in the source, a timedmap), threaded
explicitly.  Time is an explicit `Nat` parameter (seconds).
-/

set_option autoImplicit false

namespace ColorListener

/-- 8-bit RGBA color value, as Go's image/color RGBA; channels as Nat (the
decoder only ever produces values below 256). -/
structure RGBA where
  r : Nat
  g : Nat
  b : Nat
  a : Nat
  deriving DecidableEq, Repr

/-- Hex digit test, the character class [0-9A-Fa-f] of rxColorHex. -/
def isHexDigitCh (c : Char) : Bool :=
  (decide (48 ≤ c.toNat) && decide (c.toNat ≤ 57))
  || (decide (97 ≤ c.toNat) && decide (c.toNat ≤ 102))
  || (decide (65 ≤ c.toNat) && decide (c.toNat ≤ 70))

/-- Value of a hex digit character (0 for non-hex input, never hit on the
paths where it is used). -/
def hexVal (c : Char) : Nat :=
  if 48 ≤ c.toNat && c.toNat ≤ 57 then c.toNat - 48
  else if 97 ≤ c.toNat && c.toNat ≤ 102 then c.toNat - 87
  else if 65 ≤ c.toNat && c.toNat ≤ 70 then c.toNat - 55
  else 0

/-- Strip one leading '#': mirrors createReaction's
strings.HasPrefix(hexClr, "#") followed by hexClr[1:] ('#' is one byte). -/
def dropHash (cs : List Char) : List Char :=
  match cs with
  | c :: t => if c = '#' then t else c :: t
  | [] => []

/-- The scanner's token test, regex ^#?[0-9A-Fa-f]{6,8}$: an optional leading
'#' followed by 6 to 8 hex digits.  Stated via dropHash: since '#' is not a
hex digit, a string matches the regex iff after removing one leading '#' (if
present) the remainder is a run of 6 to 8 hex digits. -/
def rxColorHex (cs : List Char) : Bool :=
  let t := dropHash cs
  t.all isHexDigitCh && decide (6 ≤ t.length) && decide (t.length ≤ 8)

/-- Byte value of the i-th hex pair of a digit run. -/
def byteAt (cs : List Char) (i : Nat) : Nat :=
  16 * hexVal (cs.getD (2 * i) '0') + hexVal (cs.getD (2 * i + 1) '0')

/-- Modelled from the spec: pkg/colors FromHex (the decode operation) is not
under src/.  The spec: decode fails with InvalidColorFormat if the string is
not 6 or 8 hex digits after stripping an optional '#'; an 8-digit input's
trailing byte is the alpha channel; a 6-digit input implies full opacity. -/
def FromHex (cs : List Char) : Option RGBA :=
  let t := dropHash cs
  if t.all isHexDigitCh then
    if t.length = 6 then some ⟨byteAt t 0, byteAt t 1, byteAt t 2, 255⟩
    else if t.length = 8 then some ⟨byteAt t 0, byteAt t 1, byteAt t 2, byteAt t 3⟩
    else none
  else none

/-- Uppercase hex digit character of a value below 16. -/
def hexDigitCh (n : Nat) : Char :=
  if n < 10 then Char.ofNat (48 + n) else Char.ofNat (55 + n)

/-- Modelled from the spec: pkg/colors toHex is not under src/.  The spec:
canonical uppercase, no '#' prefix, zero-padded per channel; the derived hex
string has 6 digits (full opacity) or 8 digits (explicit alpha). -/
def ToHexCanon (c : RGBA) : List Char :=
  let rgb := [hexDigitCh (c.r / 16), hexDigitCh (c.r % 16),
              hexDigitCh (c.g / 16), hexDigitCh (c.g % 16),
              hexDigitCh (c.b / 16), hexDigitCh (c.b % 16)]
  if c.a = 255 then rgb
  else rgb ++ [hexDigitCh (c.a / 16), hexDigitCh (c.a % 16)]

/-- A correlation-cache value.  The listener only ever stores an RGBA pointer,
but the Go lookup goes through interface{} and a type assertion, so the model
keeps a second arm for a value of any other type. -/
inductive CacheValue where
  | rgba (c : RGBA)
  | other
  deriving DecidableEq

/-- One correlation-cache entry: message id key, stored value, absolute expiry
instant. -/
structure CacheEntry where
  key : String
  val : CacheValue
  expiry : Nat
  deriving DecidableEq

/-- Modelled from the spec: the timedmap dependency backing `emojiCahce` is not
under src/.  The spec's CorrelationCache contract: put inserts or overwrites
refreshing the TTL, get is lazy-expiring (entries older than the TTL are
treated as absent on lookup), remove deletes. -/
abbrev TimedMap := List CacheEntry

/-- Cache removal: drops every entry with the given key. -/
def TimedMap.remove (m : TimedMap) (k : String) : TimedMap :=
  m.filter (fun e => e.key != k)

/-- Cache put: stores the value with expiry = now + ttl, overwriting any
existing entry for the key. -/
def TimedMap.set (m : TimedMap) (k : String) (v : CacheValue) (now ttl : Nat) : TimedMap :=
  ⟨k, v, now + ttl⟩ :: m.remove k

/-- Cache lookup with lazy expiry: an entry whose expiry has been reached is
reported absent. -/
def TimedMap.getValue (m : TimedMap) (k : String) (now : Nat) : Option CacheValue :=
  match m.find? (fun e => e.key == k) with
  | some e => if now < e.expiry then some e.val else none
  | none => none

/-- Cache membership, as timedmap Contains: present and unexpired. -/
def TimedMap.contains (m : TimedMap) (k : String) (now : Nat) : Bool :=
  (m.getValue k now).isSome

/-- One hour in seconds. -/
def hourSec : Nat := 3600

/-- The TTL of the Set call in createReaction: 24 * time.Hour. -/
def ttl24h : Nat := 24 * hourSec

/-- Every platform/external call the listener performs, in order. -/
inductive Effect where
  | dbQuery (guildId : String)
  | logErr (what : String)
  | emojiUpload (guildId : String) (name : List Char)
  | reactionAdd (channelId messageId : String) (name : List Char) (emojiId : String)
  | scheduleDelete (guildId emojiId : String)
  | sendReply (channelId : String) (clr : RGBA)
  deriving DecidableEq

/-- Outcomes of the fallible external collaborators for one event: the settings
store result, whether image rendering succeeds for a color, the emoji id
assigned on a successful upload of a given name (none = upload fails), whether
the reaction attach succeeds for an emoji id, whether the embed send
succeeds. -/
structure Env where
  db : Except Unit Bool
  imageOk : RGBA → Bool
  emojiCreate : List Char → Option String
  reactOk : String → Bool
  sendOk : Bool

/-- The fields of a discordgo Message the listener reads. -/
structure Msg where
  id : String
  guildId : String
  channelId : String
  content : List Char

/-- The fields of a MessageReactionAdd event the listener reads. -/
structure ReactionEvent where
  userId : String
  messageId : String
  channelId : String

/-- Go len() on a string counts UTF-8 bytes. -/
def byteLen (cs : List Char) : Nat := (cs.map Char.utf8Size).sum

/-- strings.ReplaceAll(content, "\n", " ") is a per-character map. -/
def normNewline (c : Char) : Char := if c = '\n' then ' ' else c

/-- strings.Split(content, " "): split on every space, keeping empty pieces. -/
def splitSpace : List Char → List (List Char)
  | [] => [[]]
  | c :: rest =>
    if c = ' ' then [] :: splitSpace rest
    else
      match splitSpace rest with
      | t :: ts => (c :: t) :: ts
      | [] => [[c]]

/-- The match-collection loop of process: normalize newlines, split on spaces,
keep the tokens matching rxColorHex. -/
def scanTokens (content : List Char) : List (List Char) :=
  (splitSpace (content.map normNewline)).filter rxColorHex

/-- createReaction: strip an optional '#', decode, render the swatch, upload
the emoji, attach it as a reaction; only after both platform calls succeed,
put the correlation entry (24h TTL) and schedule the emoji deletion.  Any
failure logs and abandons this match, leaving the cache untouched. -/
def createReaction (env : Env) (m : Msg) (tok : List Char) (cache : TimedMap) (now : Nat) :
    List Effect × TimedMap :=
  let hexClr := dropHash tok
  match FromHex hexClr with
  | none => ([Effect.logErr "parse"], cache)
  | some clr =>
    if env.imageOk clr then
      match env.emojiCreate hexClr with
      | none => ([Effect.emojiUpload m.guildId hexClr, Effect.logErr "upload"], cache)
      | some eid =>
        if env.reactOk eid then
          ([Effect.emojiUpload m.guildId hexClr,
            Effect.reactionAdd m.channelId m.id hexClr eid,
            Effect.scheduleDelete m.guildId eid],
           cache.set m.id (CacheValue.rgba clr) now ttl24h)
        else
          ([Effect.emojiUpload m.guildId hexClr,
            Effect.reactionAdd m.channelId m.id hexClr eid,
            Effect.logErr "react"],
           cache)
    else ([Effect.logErr "image"], cache)

/-- The per-match loop of process: createReaction for each match in order,
threading the cache. -/
def processMatches (env : Env) (m : Msg) : List (List Char) → TimedMap → Nat →
    List Effect × TimedMap
  | [], cache, _ => ([], cache)
  | tok :: rest, cache, now =>
    let r := createReaction env m tok cache now
    let r2 := processMatches env m rest r.2 now
    (r.1 ++ r2.1, r2.2)

/-- process: the shared body of HandlerMessageCreate and HandlerMessageEdit.
Messages shorter than 6 bytes return at once; then the content is scanned for
matches, the guild's color-reaction setting is queried (a lookup error or a
disabled flag returns without acting), and each match gets its reaction. -/
def process (env : Env) (m : Msg) (cache : TimedMap) (now : Nat) :
    List Effect × TimedMap :=
  if byteLen m.content < 6 then ([], cache)
  else
    let found := scanTokens m.content
    match env.db with
    | Except.error _ => ([Effect.dbQuery m.guildId, Effect.logErr "db"], cache)
    | Except.ok false => ([Effect.dbQuery m.guildId], cache)
    | Except.ok true =>
      let r := processMatches env m found cache now
      (Effect.dbQuery m.guildId :: r.1, r.2)

/-- HandlerMessageReaction: ignore the bot's own reactions; ignore message ids
with no live cache entry; on a well-typed hit, send the color-breakdown reply
(a send failure is only logged) and remove the entry. -/
def HandlerMessageReaction (env : Env) (botId : String) (e : ReactionEvent)
    (cache : TimedMap) (now : Nat) : List Effect × TimedMap :=
  if e.userId = botId then ([], cache)
  else if !(cache.contains e.messageId now) then ([], cache)
  else
    match cache.getValue e.messageId now with
    | some (CacheValue.rgba clr) =>
      (Effect.sendReply e.channelId clr ::
         (if env.sendOk then [] else [Effect.logErr "send"]),
       cache.remove e.messageId)
    | _ => ([], cache)

/-- Effect classifiers used by the theorems. -/
def Effect.isReply : Effect → Bool
  | .sendReply _ _ => true
  | _ => false

def Effect.isUpload : Effect → Bool
  | .emojiUpload _ _ => true
  | _ => false

def Effect.isReact : Effect → Bool
  | .reactionAdd _ _ _ _ => true
  | _ => false

def Effect.isDbQuery : Effect → Bool
  | .dbQuery _ => true
  | _ => false

def Effect.isLog : Effect → Bool
  | .logErr _ => true
  | _ => false

/-- Number of reply sends in an effect trace. -/
def countReplies (fx : List Effect) : Nat := (fx.filter Effect.isReply).length

/-- All-success environment used by concrete witnesses. -/
def envAll : Env where
  db := Except.ok true
  imageOk := fun _ => true
  emojiCreate := fun _ => some "E1"
  reactOk := fun _ => true
  sendOk := true

/-! Cache lemmas. -/

/-- A fresh put is found with exactly its stored expiry window. -/
theorem getValue_set_self (m : TimedMap) (k : String) (v : CacheValue) (now ttl t : Nat) :
    TimedMap.getValue (TimedMap.set m k v now ttl) k t
      = if t < now + ttl then some v else none := by
  simp [TimedMap.set, TimedMap.getValue, List.find?]

/-- After removal a key is never found, at any time. -/
theorem getValue_remove_self (m : TimedMap) (k : String) (t : Nat) :
    TimedMap.getValue (TimedMap.remove m k) k t = none := by
  induction m with
  | nil => rfl
  | cons e rest ih =>
    unfold TimedMap.remove at *
    rw [List.filter_cons]
    by_cases h : e.key = k
    · simp [h, ih]
    · simpa [TimedMap.getValue, List.find?, h] using ih

/-- Re-putting a key drops the earlier entry entirely: put is last-write-wins
and refreshes the expiry. -/
theorem set_set (m : TimedMap) (k : String) (v₁ v₂ : CacheValue) (n₁ n₂ t₁ t₂ : Nat) :
    TimedMap.set (TimedMap.set m k v₁ n₁ t₁) k v₂ n₂ t₂ = TimedMap.set m k v₂ n₂ t₂ := by
  simp only [TimedMap.set, TimedMap.remove, List.filter_cons]
  simp [List.filter_filter]

/-- A run of hex digits cannot start with '#', so dropHash is the identity
on it. -/
theorem dropHash_of_hexRun (cs : List Char) (h : cs.all isHexDigitCh = true) :
    dropHash cs = cs := by
  cases cs with
  | nil => rfl
  | cons c t =>
    by_cases hc : c = '#'
    · subst hc
      simp [List.all_cons, isHexDigitCh] at h
    · simp [dropHash, hc]

/-- The effect trace of createReaction is a function of the environment, the
message and the token alone: it does not depend on the cache state or the
clock. -/
theorem createReaction_fst_const (env : Env) (m : Msg) (tok : List Char)
    (c c' : TimedMap) (n n' : Nat) :
    (createReaction env m tok c n).1 = (createReaction env m tok c' n').1 := by
  simp only [createReaction]
  cases h : FromHex (dropHash tok) with
  | none => simp [h]
  | some clr =>
    simp only [h]
    by_cases himg : env.imageOk clr = true
    · simp only [himg, if_true]
      cases hec : env.emojiCreate (dropHash tok) with
      | none => simp [hec]
      | some eid =>
        by_cases hr : env.reactOk eid = true <;> simp [hec, hr]
    · simp [himg]

/-- The match loop's effect trace is the concatenation of the per-token
traces, each computed from the initial cache: one token's outcome never
changes what is attempted for the others. -/
theorem processMatches_fst (env : Env) (m : Msg) (toks : List (List Char))
    (cache : TimedMap) (now : Nat) :
    (processMatches env m toks cache now).1
      = (toks.map fun tok => (createReaction env m tok cache now).1).flatten := by
  induction toks generalizing cache with
  | nil => rfl
  | cons tok rest ih =>
    simp only [processMatches, List.map_cons, List.flatten_cons]
    rw [ih]
    have hmap : (rest.map fun tok2 =>
          (createReaction env m tok2 (createReaction env m tok cache now).2 now).1)
        = rest.map fun tok2 => (createReaction env m tok2 cache now).1 :=
      List.map_congr_left fun tok2 _ =>
        createReaction_fst_const env m tok2 ((createReaction env m tok cache now).2) cache now now
    rw [hmap]

/-! Claim theorems. -/

/-- C1: processing one color token either leaves the correlation cache (the
only shared state) exactly as it was, or the decode, the image render, the
emoji upload and the reaction attach all succeeded and the result is precisely
the cache put; hence a failure of the emoji upload or of the reaction attach
leaves no correlation entry and changes no shared state, and the put is
performed only after both platform calls have succeeded. -/
theorem createReaction_put_only_after_success (env : Env) (m : Msg) (tok : List Char)
    (cache : TimedMap) (now : Nat) :
    (createReaction env m tok cache now).2 = cache
    ∨ ∃ clr eid, FromHex (dropHash tok) = some clr ∧ env.imageOk clr = true
        ∧ env.emojiCreate (dropHash tok) = some eid ∧ env.reactOk eid = true
        ∧ (createReaction env m tok cache now).2
            = TimedMap.set cache m.id (CacheValue.rgba clr) now ttl24h := by
  simp only [createReaction]
  cases h : FromHex (dropHash tok) with
  | none => exact Or.inl rfl
  | some clr =>
    simp only [h]
    by_cases himg : env.imageOk clr = true
    · simp only [himg, if_true]
      cases hec : env.emojiCreate (dropHash tok) with
      | none => exact Or.inl rfl
      | some eid =>
        by_cases hr : env.reactOk eid = true
        · simp only [hr, if_true]
          exact Or.inr ⟨clr, eid, rfl, himg, rfl, hr, rfl⟩
        · simp only [hr, if_false, Bool.false_eq_true]
          exact Or.inl trivial
    · simp only [himg, if_false, Bool.false_eq_true]
      exact Or.inl trivial

/-- C3: a reaction-add event whose reactor is the bot itself is ignored
outright: no effect is emitted (in particular no reply is sent) and the cache
is returned unchanged, whatever entries it holds. -/
theorem reaction_self_ignored (env : Env) (botId : String) (e : ReactionEvent)
    (cache : TimedMap) (now : Nat) (h : e.userId = botId) :
    HandlerMessageReaction env botId e cache now = ([], cache) := by
  unfold HandlerMessageReaction
  rw [if_pos h]

/-- C3 witness: the bot's own reaction is dropped even while a live entry for
that very message id sits in the cache. -/
theorem reaction_self_ignored_witness :
    HandlerMessageReaction envAll "B" ⟨"B", "M", "C"⟩
        [⟨"M", CacheValue.rgba ⟨1, 2, 3, 255⟩, 10⟩] 0
      = ([], [⟨"M", CacheValue.rgba ⟨1, 2, 3, 255⟩, 10⟩]) :=
  reaction_self_ignored envAll "B" ⟨"B", "M", "C"⟩
    [⟨"M", CacheValue.rgba ⟨1, 2, 3, 255⟩, 10⟩] 0 rfl

/-- C9: a message whose content is shorter than 6 bytes is dropped before
anything happens: no settings-store query, no scan consequence, no upload, no
cache change — the handler returns the empty effect trace and the unchanged
cache. -/
theorem process_short_content_noop (env : Env) (m : Msg) (cache : TimedMap) (now : Nat)
    (h : byteLen m.content < 6) :
    process env m cache now = ([], cache) := by
  unfold process
  rw [if_pos h]

/-- C9 witness: the five-byte message "12345" (which would even match nothing)
yields no effect at all, with the settings store never queried. -/
theorem process_short_content_noop_witness :
    process envAll ⟨"M", "G", "C", ['1', '2', '3', '4', '5']⟩ [] 0 = ([], []) :=
  process_short_content_noop envAll ⟨"M", "G", "C", ['1', '2', '3', '4', '5']⟩ [] 0
    (by decide)

/-- C6: correlation-cache entries are stored with expiry = creation time plus
the fixed 24-hour TTL: a get strictly before the expiry returns the stored
sample, a get at or after it reports not-found, a re-put for a present key
overwrites the entry and refreshes its TTL (put after put equals the second
put alone), and the successful createReaction path performs exactly this put
with the 24-hour TTL. -/
theorem correlation_ttl_semantics (m : TimedMap) (k : String) (v : CacheValue)
    (now t : Nat) :
    (t < now + ttl24h →
      TimedMap.getValue (TimedMap.set m k v now ttl24h) k t = some v)
    ∧ (now + ttl24h ≤ t →
      TimedMap.getValue (TimedMap.set m k v now ttl24h) k t = none)
    ∧ (∀ v₁ n₁, TimedMap.set (TimedMap.set m k v₁ n₁ ttl24h) k v now ttl24h
        = TimedMap.set m k v now ttl24h)
    ∧ (∀ env msg tok cache clr eid, FromHex (dropHash tok) = some clr →
        env.imageOk clr = true → env.emojiCreate (dropHash tok) = some eid →
        env.reactOk eid = true →
        (createReaction env msg tok cache now).2
          = TimedMap.set cache msg.id (CacheValue.rgba clr) now ttl24h) := by
  refine ⟨fun h => ?_, fun h => ?_, fun v₁ n₁ => set_set m k v₁ v n₁ now ttl24h ttl24h, ?_⟩
  · rw [getValue_set_self, if_pos h]
  · rw [getValue_set_self, if_neg (by omega)]
  · intro env msg tok cache clr eid hdec himg hec hr
    simp only [createReaction, hdec, himg, if_true, hec, hr]

/-- C6 witness: at concrete values, a put is visible one hour later, gone at
the 24-hour mark, and the successful createReaction path stores with the
24-hour TTL. -/
theorem correlation_ttl_semantics_witness :
    TimedMap.getValue
        (TimedMap.set [] "M" (CacheValue.rgba ⟨1, 2, 3, 255⟩) 0 ttl24h) "M" hourSec
      = some (CacheValue.rgba ⟨1, 2, 3, 255⟩)
    ∧ TimedMap.getValue
        (TimedMap.set [] "M" (CacheValue.rgba ⟨1, 2, 3, 255⟩) 0 ttl24h) "M" ttl24h
      = none
    ∧ (createReaction envAll ⟨"M", "G", "C", []⟩ ['1', '1', '2', '2', '3', '3'] [] 0).2
      = TimedMap.set [] "M" (CacheValue.rgba ⟨17, 34, 51, 255⟩) 0 ttl24h :=
  ⟨(correlation_ttl_semantics [] "M" (CacheValue.rgba ⟨1, 2, 3, 255⟩) 0 hourSec).1
      (by decide),
   (correlation_ttl_semantics [] "M" (CacheValue.rgba ⟨1, 2, 3, 255⟩) 0 ttl24h).2.1
      (by decide),
   (correlation_ttl_semantics [] "M" (CacheValue.rgba ⟨1, 2, 3, 255⟩) 0 ttl24h).2.2.2
      envAll ⟨"M", "G", "C", []⟩ ['1', '1', '2', '2', '3', '3'] [] ⟨17, 34, 51, 255⟩ "E1"
      (by decide) rfl rfl rfl⟩

/-- C2: a non-bot reaction on a message id with a live, well-typed correlation
entry sends exactly one reply and removes the entry for good: the entry is no
longer found at any later instant, and any further reaction-add event on the
same message id (whatever its reactor and whenever it arrives) produces no
reply. -/
theorem first_reaction_single_consumption (env env₂ : Env) (botId : String)
    (e e₂ : ReactionEvent) (cache : TimedMap) (now now₂ t : Nat) (clr : RGBA)
    (hu : e.userId ≠ botId)
    (hv : TimedMap.getValue cache e.messageId now = some (CacheValue.rgba clr))
    (hm : e₂.messageId = e.messageId) :
    countReplies (HandlerMessageReaction env botId e cache now).1 = 1
    ∧ TimedMap.getValue (HandlerMessageReaction env botId e cache now).2 e.messageId t
        = none
    ∧ countReplies
        (HandlerMessageReaction env₂ botId e₂
          (HandlerMessageReaction env botId e cache now).2 now₂).1 = 0 := by
  have hrun : HandlerMessageReaction env botId e cache now
      = (Effect.sendReply e.channelId clr ::
           (if env.sendOk then [] else [Effect.logErr "send"]),
         cache.remove e.messageId) := by
    unfold HandlerMessageReaction
    rw [if_neg hu]
    simp [TimedMap.contains, hv]
  refine ⟨?_, ?_, ?_⟩
  · rw [hrun]
    cases env.sendOk <;> simp [countReplies, Effect.isReply]
  · rw [hrun]
    exact getValue_remove_self cache e.messageId t
  · rw [hrun]
    unfold HandlerMessageReaction
    by_cases hu₂ : e₂.userId = botId
    · rw [if_pos hu₂]
      rfl
    · rw [if_neg hu₂]
      have hnone : TimedMap.getValue (cache.remove e.messageId) e₂.messageId now₂
          = none := by
        rw [hm]
        exact getValue_remove_self cache e.messageId now₂
      simp [TimedMap.contains, hnone, countReplies]

/-- C2 witness: with a live entry for message "M", the first human reaction
replies once and empties the cache for "M"; a second human reaction on "M"
one second later replies zero times. -/
theorem first_reaction_single_consumption_witness :
    countReplies
        (HandlerMessageReaction envAll "B" ⟨"U", "M", "C"⟩
          [⟨"M", CacheValue.rgba ⟨17, 34, 51, 255⟩, ttl24h⟩] 0).1 = 1
    ∧ TimedMap.getValue
        (HandlerMessageReaction envAll "B" ⟨"U", "M", "C"⟩
          [⟨"M", CacheValue.rgba ⟨17, 34, 51, 255⟩, ttl24h⟩] 0).2 "M" 1 = none
    ∧ countReplies
        (HandlerMessageReaction envAll "B" ⟨"V", "M", "C"⟩
          (HandlerMessageReaction envAll "B" ⟨"U", "M", "C"⟩
            [⟨"M", CacheValue.rgba ⟨17, 34, 51, 255⟩, ttl24h⟩] 0).2 1).1 = 0 :=
  first_reaction_single_consumption envAll envAll "B" ⟨"U", "M", "C"⟩ ⟨"V", "M", "C"⟩
    [⟨"M", CacheValue.rgba ⟨17, 34, 51, 255⟩, ttl24h⟩] 0 1 1 ⟨17, 34, 51, 255⟩
    (by decide) (by decide) rfl

/-- C10: when the reply send fails (and is merely logged), a non-bot reaction
on a live, well-typed entry still removes the entry: the effect trace is the
send attempt plus the log line, the resulting cache is exactly the removal,
the entry is never found again, and no later reaction-add event on that
message id produces any reply. -/
theorem failed_send_still_consumes (env : Env) (botId : String) (e : ReactionEvent)
    (cache : TimedMap) (now : Nat) (clr : RGBA)
    (hu : e.userId ≠ botId)
    (hv : TimedMap.getValue cache e.messageId now = some (CacheValue.rgba clr))
    (hs : env.sendOk = false) :
    (HandlerMessageReaction env botId e cache now).1
      = [Effect.sendReply e.channelId clr, Effect.logErr "send"]
    ∧ (HandlerMessageReaction env botId e cache now).2
      = TimedMap.remove cache e.messageId
    ∧ ∀ env₂ e₂ now₂, e₂.messageId = e.messageId →
        countReplies
          (HandlerMessageReaction env₂ botId e₂
            (HandlerMessageReaction env botId e cache now).2 now₂).1 = 0 := by
  have hrun : HandlerMessageReaction env botId e cache now
      = ([Effect.sendReply e.channelId clr, Effect.logErr "send"],
         cache.remove e.messageId) := by
    unfold HandlerMessageReaction
    rw [if_neg hu]
    simp [TimedMap.contains, hv, hs]
  refine ⟨by rw [hrun], by rw [hrun], ?_⟩
  intro env₂ e₂ now₂ hm
  rw [hrun]
  unfold HandlerMessageReaction
  by_cases hu₂ : e₂.userId = botId
  · rw [if_pos hu₂]
    rfl
  · rw [if_neg hu₂]
    have hnone : TimedMap.getValue (cache.remove e.messageId) e₂.messageId now₂
        = none := by
      rw [hm]
      exact getValue_remove_self cache e.messageId now₂
    simp [TimedMap.contains, hnone, countReplies]

/-- C10 witness: with sends failing, the reaction on "M" yields exactly the
send attempt and a log line, the cache drops "M", and a following reaction on
"M" replies zero times. -/
theorem failed_send_still_consumes_witness :
    (HandlerMessageReaction
        { envAll with sendOk := false } "B" ⟨"U", "M", "C"⟩
        [⟨"M", CacheValue.rgba ⟨9, 9, 9, 255⟩, 50⟩] 0).1
      = [Effect.sendReply "C" ⟨9, 9, 9, 255⟩, Effect.logErr "send"]
    ∧ (HandlerMessageReaction
        { envAll with sendOk := false } "B" ⟨"U", "M", "C"⟩
        [⟨"M", CacheValue.rgba ⟨9, 9, 9, 255⟩, 50⟩] 0).2
      = TimedMap.remove [⟨"M", CacheValue.rgba ⟨9, 9, 9, 255⟩, 50⟩] "M"
    ∧ countReplies
        (HandlerMessageReaction envAll "B" ⟨"W", "M", "C"⟩
          (HandlerMessageReaction
            { envAll with sendOk := false } "B" ⟨"U", "M", "C"⟩
            [⟨"M", CacheValue.rgba ⟨9, 9, 9, 255⟩, 50⟩] 0).2 7).1 = 0 := by
  have h := failed_send_still_consumes
    { envAll with sendOk := false } "B" ⟨"U", "M", "C"⟩
    [⟨"M", CacheValue.rgba ⟨9, 9, 9, 255⟩, 50⟩] 0 ⟨9, 9, 9, 255⟩
    (by decide) (by decide) rfl
  exact ⟨h.1, h.2.1, h.2.2 envAll ⟨"W", "M", "C"⟩ 7 rfl⟩

/-- C7: when the settings-store lookup errors, the event is handled as if the
feature were disabled: every emitted effect is the lookup itself or a log
line (so no emoji upload, no reaction add, no reply), and the correlation
cache is returned unchanged. -/
theorem process_db_error_inert (env : Env) (m : Msg) (cache : TimedMap) (now : Nat)
    (u : Unit) (h : env.db = Except.error u) :
    ((process env m cache now).1.all fun fx => fx.isDbQuery || fx.isLog) = true
    ∧ (process env m cache now).2 = cache := by
  unfold process
  by_cases hl : byteLen m.content < 6
  · simp [hl]
  · rw [if_neg hl, h]
    exact ⟨rfl, rfl⟩

/-- C7 witness: the message "#112233" under a failing settings store causes no
upload, no reaction and no cache write — only the query and a log line. -/
theorem process_db_error_inert_witness :
    ((process { envAll with db := Except.error () } ⟨"M", "G", "C", "#112233".data⟩
        [] 0).1.all fun fx => fx.isDbQuery || fx.isLog) = true
    ∧ (process { envAll with db := Except.error () } ⟨"M", "G", "C", "#112233".data⟩
        [] 0).2 = [] :=
  process_db_error_inert { envAll with db := Except.error () }
    ⟨"M", "G", "C", "#112233".data⟩ [] 0 () rfl

/-- C4 counterexample: the scanner's pattern also accepts 7 hex digits, which
the decoder rejects — the token "#1234567" matches rxColorHex, yet the decode
performed on it by createReaction fails (the InvalidColorFormat branch is
reached), so the decode-failure branch is NOT unreachable for
scanner-accepted input. -/
theorem scanner_decode_mismatch :
    rxColorHex ['#', '1', '2', '3', '4', '5', '6', '7'] = true
    ∧ FromHex (dropHash ['#', '1', '2', '3', '4', '5', '6', '7']) = none
    ∧ (createReaction envAll ⟨"M", "G", "C", []⟩
        ['#', '1', '2', '3', '4', '5', '6', '7'] [] 0)
      = ([Effect.logErr "parse"], []) := by
  refine ⟨by decide, by decide, ?_⟩
  rfl

/-- C4 amended: for every scanner-accepted token whose digit count after
stripping the optional '#' is 6 or 8 (that is, not 7), the decode never
fails; scanner-accepted 7-digit tokens do reach the decode-failure branch. -/
theorem scanner_accepted_non7_decodes (cs : List Char)
    (h : rxColorHex cs = true) (h7 : (dropHash cs).length ≠ 7) :
    (FromHex (dropHash cs)).isSome = true := by
  unfold rxColorHex at h
  simp only [Bool.and_eq_true, decide_eq_true_eq] at h
  obtain ⟨⟨hx, h6⟩, h8⟩ := h
  unfold FromHex
  rw [dropHash_of_hexRun (dropHash cs) hx, if_pos hx]
  rcases Nat.lt_or_ge (dropHash cs).length 7 with hlt | hge
  · have hl6 : (dropHash cs).length = 6 := by omega
    rw [if_pos hl6]
    rfl
  · have hl8 : (dropHash cs).length = 8 := by omega
    rw [if_neg (by omega), if_pos hl8]
    rfl

/-- C4 amended witness: the 6-digit scanner-accepted token "#A1b2C3"
decodes. -/
theorem scanner_accepted_non7_decodes_witness :
    (FromHex (dropHash ['#', 'A', '1', 'b', '2', 'C', '3'])).isSome = true :=
  scanner_accepted_non7_decodes ['#', 'A', '1', 'b', '2', 'C', '3']
    (by decide) (by decide)

/-- C5 counterexample: the emoji is named after the raw token with the '#'
stripped, not after the canonical uppercase hex of the decoded color: the
message "bg: #aabbcc" (feature enabled, platform calls succeeding) uploads
exactly one emoji, named aabbcc, while the canonical hex string of the
decoded color is AABBCC — and the two differ. -/
theorem emoji_name_not_canonical_cex :
    ((process envAll ⟨"M", "G", "C", "bg: #aabbcc".data⟩ [] 0).1.filter
        Effect.isUpload
      = [Effect.emojiUpload "G" ['a', 'a', 'b', 'b', 'c', 'c']])
    ∧ ToHexCanon ⟨170, 187, 204, 255⟩ = ['A', 'A', 'B', 'B', 'C', 'C']
    ∧ (['a', 'a', 'b', 'b', 'c', 'c'] : List Char)
        ≠ ['A', 'A', 'B', 'B', 'C', 'C'] := by
  refine ⟨by decide, by decide, by decide⟩

/-- C5 amended: every emoji upload a token triggers is named after that token
with the optional leading '#' stripped, exactly as written in the message
(case preserved); in particular the message "bg: #112233" produces exactly
one emoji upload, named 112233 (which here coincides with the canonical hex
of the decoded color, as the token has no letters). -/
theorem emoji_named_after_stripped_token :
    (∀ env m tok cache now,
      (createReaction env m tok cache now).1.filter Effect.isUpload = []
      ∨ (createReaction env m tok cache now).1.filter Effect.isUpload
          = [Effect.emojiUpload m.guildId (dropHash tok)])
    ∧ (process envAll ⟨"M", "G", "C", "bg: #112233".data⟩ [] 0).1.filter
        Effect.isUpload
      = [Effect.emojiUpload "G" ['1', '1', '2', '2', '3', '3']] := by
  constructor
  · intro env m tok cache now
    simp only [createReaction]
    cases h : FromHex (dropHash tok) with
    | none => exact Or.inl rfl
    | some clr =>
      simp only [h]
      by_cases himg : env.imageOk clr = true
      · simp only [himg, if_true]
        cases hec : env.emojiCreate (dropHash tok) with
        | none => exact Or.inr (by simp [Effect.isUpload, Effect.isReact, List.filter])
        | some eid =>
          by_cases hr : env.reactOk eid = true
          · simp only [hr, if_true]
            exact Or.inr (by simp [Effect.isUpload, List.filter])
          · simp only [hr, if_false, Bool.false_eq_true]
            exact Or.inr (by simp [Effect.isUpload, List.filter])
      · simp only [himg, if_false, Bool.false_eq_true]
        exact Or.inl rfl
  · decide

/-- C8: with the feature enabled, the effect trace of a message is the
settings query followed by the concatenation of each matched token's own
trace, every one computed from the same initial cache — so a decode, image,
upload or reaction failure while processing one token changes nothing about
the attempt made for any other token of the same message. -/
theorem token_failures_independent (env : Env) (m : Msg) (cache : TimedMap)
    (now : Nat) (hdb : env.db = Except.ok true) (hlen : 6 ≤ byteLen m.content) :
    (process env m cache now).1
      = Effect.dbQuery m.guildId
        :: ((scanTokens m.content).map fun tok =>
              (createReaction env m tok cache now).1).flatten := by
  unfold process
  rw [if_neg (by omega), hdb]
  simp only []
  rw [processMatches_fst]

/-- C8 witness: in "xx #1234567 #112233 yy" the first token fails its decode,
yet the second token still gets its full upload/react attempt: the trace is
the query, the first token's lone parse log, then the second token's three
platform calls. -/
theorem token_failures_independent_witness :
    (process envAll ⟨"M", "G", "C", "xx #1234567 #112233 yy".data⟩ [] 0).1
      = Effect.dbQuery "G"
        :: ((scanTokens "xx #1234567 #112233 yy".data).map fun tok =>
              (createReaction envAll ⟨"M", "G", "C", "xx #1234567 #112233 yy".data⟩
                tok [] 0).1).flatten :=
  token_failures_independent envAll ⟨"M", "G", "C", "xx #1234567 #112233 yy".data⟩
    [] 0 rfl (by decide)

end ColorListener
